import Mathlib

/-!
Verification of the Ferron Forge build-and-package orchestrator
(src/src/main.rs) against its natural-language specification.

The development shallowly embeds the pure decision logic of the program:

* the rustup toolchain resolver (get_rustup_toolchain, lines 149-162),
* the build orchestrator compile (lines 165-224), and
* the archive assembler (the body of main, lines 79-138),

as executable Lean functions over explicit representations of their
inputs.  External collaborators (the cargo build-system library, the
filesystem walker, the zip writer) are modelled at the interface the
program uses: the build system is an arbitrary function producing a
result, the walker is the list of entries it yields, and the archive is
the list of entries written to it together with its comment.
-/

namespace FerronForge

/-! ### Toolchain resolver (get_rustup_toolchain, main.rs lines 149-162) -/

/-- A parsed TOML value, seen at the granularity the program uses:
`as_str()` distinguishes string values from everything else. -/
inductive TomlValue
  | str (s : String)
  | nonStr
deriving DecidableEq

/-- A parsed TOML table: key/value pairs.  Models `toml::Table`. -/
def TomlTable : Type := List (String × TomlValue)

/-- Key lookup in a parsed table, models `Table::get`.  Note that the
source does NOT call `get`: it uses the `Index` operator, which panics
on a missing key (see `getRustupToolchain`). -/
def tableGet : TomlTable → String → Option TomlValue
  | [], _ => none
  | (k, v) :: rest, key => if k = key then some v else tableGet rest key

/-- Outcome of toolchain resolution.  `recoverableErr` is a value of
type `Err` returned to the caller (which swallows it with
`if let Ok(..)`); `panicAbort` models a Rust panic, which unwinds out of
the whole program and aborts the run. -/
inductive ResolveOutcome
  | ok (toolchain : String)
  | recoverableErr
  | panicAbort
deriving DecidableEq

/-- Embeds `get_rustup_toolchain` (main.rs lines 149-162).  The input is
the parsed settings table, or `none` when reading the file
(`fs::read_to_string`, line 152) or parsing it (line 153) fails; both of
those failures propagate with `?` as recoverable errors.  The lookup
`rustup_settings["default_toolchain"]` (line 154) goes through the
`Index` impl of `toml::map::Map`, which panics when the key is absent;
when the key is present but not a string, `as_str()` yields `None` and
the function returns the recoverable error built at lines 158-160. -/
def getRustupToolchain : Option TomlTable → ResolveOutcome
  | none => ResolveOutcome.recoverableErr
  | some table =>
    match tableGet table "default_toolchain" with
    | none => ResolveOutcome.panicAbort
    | some (TomlValue.str s) => ResolveOutcome.ok s
    | some TomlValue.nonStr => ResolveOutcome.recoverableErr

/-- Whether toolchain resolution aborts the overall run.  The caller
(compile, main.rs lines 191-196) discards a returned `Err` with
`if let Ok(toolchain) = get_rustup_toolchain(..)`, so only a panic is
fatal. -/
def toolchainResolutionFatal (settings : Option TomlTable) : Bool :=
  match getRustupToolchain settings with
  | ResolveOutcome.panicAbort => true
  | _ => false

/-! ### Build orchestrator (compile, main.rs lines 165-224) -/

/-- A produced binary artifact (cargo `UnitOutput`), seen at the
granularity the archive assembler uses: `path.file_name()` converted
lossily to a string (`none` when the path has no file-name component,
main.rs lines 87-90), and the byte content obtained by opening and
copying the file (`none` when `File::open` or `io::copy` fails,
lines 91-93). -/
structure UnitOutput where
  fileName : Option String
  content : Option (List UInt8)
deriving DecidableEq

/-- The feature selection handed to the build system.  Models cargo
`CliFeatures::from_command_line(features, all_features,
uses_default_features)` at the string level (main.rs lines 217-218). -/
structure CliFeatures where
  features : List String
  allFeatures : Bool
  usesDefaultFeatures : Bool
deriving DecidableEq

/-- Compile kind: host build or an explicit cross target whose string
was accepted by target parsing (main.rs lines 180-183). -/
inductive CompileKind
  | host
  | target (triple : String)
deriving DecidableEq

/-- The compile specification the orchestrator constructs: all
workspace member packages (main.rs lines 207-212), the release profile
(line 213), the compile kind (line 214) and the feature selection
(lines 217-218). -/
structure CompileSpec where
  packages : List String
  profile : String
  kind : CompileKind
  features : CliFeatures
deriving DecidableEq

/-- What the external build system returns: the produced binaries and
the triple string it reports back (`compilation.binaries` and
`compilation.host`, main.rs line 224). -/
structure BuildResult where
  binaries : List UnitOutput
  host : String

/-- The feature-flag list constructed at main.rs lines 173-177: each
module name prefixed with the `ferron/` package namespace; an absent
list contributes no flags (`unwrap_or(&[])`, line 174). -/
def modulesAsFeatures (modules : Option (List String)) : List String :=
  (modules.getD []).map (fun feature => "ferron/" ++ feature)

/-- The feature selection of the compile specification (main.rs
lines 170 and 216-218): `all_features` is `false`, and
`uses_default_features` is `default_modules = modules.is_none()`
(line 170). -/
def cliFeaturesOf (modules : Option (List String)) : CliFeatures :=
  CliFeatures.mk (modulesAsFeatures modules) false modules.isNone

/-- The compile-kind computation (main.rs lines 180-183): an explicit
target string must be accepted by the target parser
(`CompileTarget::new(triplet)?`), whose error propagates out of
`compile` immediately; no target means a host build.  The parser is a
parameter: it is cargo library code, modelled only by its
success/failure interface (on success it returns the possibly
normalized triple name held by the `CompileTarget`). -/
def compileKindOf (parseTarget : String → Except String String) :
    Option String → Except String CompileKind
  | some triplet =>
    match parseTarget triplet with
    | Except.error e => Except.error e
    | Except.ok name => Except.ok (CompileKind.target name)
  | none => Except.ok CompileKind.host

/-- Embeds `compile` (main.rs lines 165-224): determine the compile
kind, build the compile specification (all member packages, release
profile, the computed feature selection), invoke the build system with
it, and return the binaries together with the triple string the build
system reports back.  `members` stands for the workspace member names
enumerated from the manifest (lines 207-212) and `buildSys` for
`cargo::ops::compile` (line 221), modelled as an arbitrary function at
the interface the program uses. -/
def compileRun (parseTarget : String → Except String String)
    (members : List String)
    (buildSys : CompileSpec → Except String BuildResult)
    (target : Option String) (modules : Option (List String)) :
    Except String (List UnitOutput × String) :=
  match compileKindOf parseTarget target with
  | Except.error e => Except.error e
  | Except.ok kind =>
    match buildSys (CompileSpec.mk members "release" kind (cliFeaturesOf modules)) with
    | Except.error e => Except.error e
    | Except.ok r => Except.ok (r.binaries, r.host)

/-- Modelled from the spec: cargo target parsing
(`CompileTarget::new`).  The spec requires that a target string "must
parse as a recognized platform triple, else fails with an
invalid-target error", giving the empty string as an example of an
invalid target.  `recognized` is the set of accepted triples; parsing
returns the triple unchanged on success. -/
def specParseTarget (recognized : List String) (triplet : String) :
    Except String String :=
  if triplet ∈ recognized then Except.ok triplet
  else Except.error "invalid target"

/-- Modelled from the spec: the external build system "reports back"
the resolved target triple — "the cross-compilation target triple
(possibly normalized) when an explicit target was requested, the host
triple otherwise".  A build-system function satisfies this predicate
when every successful result carries that resolved triple. -/
def reportsResolvedTriple (hostTriple : String)
    (buildSys : CompileSpec → Except String BuildResult) : Prop :=
  ∀ s r, buildSys s = Except.ok r →
    r.host = match s.kind with
             | CompileKind.host => hostTriple
             | CompileKind.target t => t

/-! ### Archive assembler (body of main, main.rs lines 79-138) -/

/-- A walked path relative to the `wwwroot` subtree root
(`path.strip_prefix(&webroot_path)`, main.rs line 112), seen at the
granularity the program uses: `to_str()` (line 113) yields the string
when the path is valid UTF-8 and `None` otherwise, and
`as_os_str().is_empty()` (line 121) tests for the empty path.  An
invalid-UTF-8 path necessarily has at least one byte, so it is never
empty. -/
inductive RPath
  | utf8 (s : String)
  | nonUtf8 (bytes : List UInt8)
deriving DecidableEq

/-- Models `Path::to_str` on the relative path (main.rs line 113). -/
def RPath.toStr : RPath → Option String
  | RPath.utf8 s => some s
  | RPath.nonUtf8 _ => none

/-- Models `as_os_str().is_empty()` on the relative path (main.rs
line 121). -/
def RPath.isEmpty : RPath → Bool
  | RPath.utf8 s => s.isEmpty
  | RPath.nonUtf8 _ => false

/-- One entry yielded by the recursive walk of the `wwwroot` subtree
(main.rs lines 107-126), at the granularity the loop uses: its path
relative to the subtree root, whether `path.is_file()` holds
(line 116; directories and other non-regular-file entries answer
`false`), and the byte content obtained by opening and copying it when
it is a regular file (`none` when `File::open` or `io::copy` fails,
lines 119-120). -/
structure WalkEntry where
  relPath : RPath
  isFile : Bool
  content : Option (List UInt8)
deriving DecidableEq

/-- Kind of an entry written to the zip archive, recording which
assembly step produced it: a compiled binary (main.rs lines 85-94), the
fixed configuration entry (lines 96-102), a static-asset file
(lines 116-120) or an explicit directory entry (lines 121-124). -/
inductive EntryKind
  | binary
  | config
  | assetFile
  | assetDir
deriving DecidableEq, BEq

/-- An entry written to the zip archive: its name as passed to
`start_file`/`add_directory`, its kind, and the bytes streamed into it
(empty for directory entries). -/
structure ZipEntry where
  name : String
  kind : EntryKind
  content : List UInt8
deriving DecidableEq

/-- An error aborting archive assembly: a failed walk step
(`entry_result?`, main.rs line 110) or a failed `File::open`/`io::copy`
on a source file (lines 91-93 and 119-120). -/
inductive ZipError
  | walkError
  | readError
deriving DecidableEq

/-- Processing of one binary artifact (main.rs lines 85-94): a path
with no file-name component is skipped with `continue` (line 89);
otherwise the file is opened and streamed (a read failure aborts), and
an entry named after the file name is written with the executable
options. -/
def binStep (b : UnitOutput) (tail : Except ZipError (List ZipEntry)) :
    Except ZipError (List ZipEntry) :=
  match b.fileName with
  | none => tail
  | some name =>
    match b.content with
    | none => Except.error ZipError.readError
    | some c =>
      match tail with
      | Except.error e => Except.error e
      | Except.ok es => Except.ok (ZipEntry.mk name EntryKind.binary c :: es)

/-- The sequence of binary entries written by the loop at main.rs
lines 85-94, or the error aborting it. -/
def assembleBinaries : List UnitOutput → Except ZipError (List ZipEntry)
  | [] => Except.ok []
  | b :: rest => binStep b (assembleBinaries rest)

/-- Processing of one walked asset entry (main.rs lines 109-126): when
the relative path is not valid UTF-8, `to_str()` yields `None` and the
`if let Some` at line 115 falls through, writing nothing; a regular
file is opened and streamed as a data entry at the relative path (a
read failure aborts); a non-file whose relative path is non-empty gets
an explicit directory entry; the subtree root (empty relative path)
is skipped. -/
def assetStep (e : WalkEntry) (tail : Except ZipError (List ZipEntry)) :
    Except ZipError (List ZipEntry) :=
  match e.relPath.toStr with
  | none => tail
  | some s =>
    if e.isFile then
      match e.content with
      | none => Except.error ZipError.readError
      | some c =>
        match tail with
        | Except.error err => Except.error err
        | Except.ok es => Except.ok (ZipEntry.mk s EntryKind.assetFile c :: es)
    else if e.relPath.isEmpty then tail
    else
      match tail with
      | Except.error err => Except.error err
      | Except.ok es => Except.ok (ZipEntry.mk s EntryKind.assetDir [] :: es)

/-- The asset entries written by the walk loop (main.rs lines 109-126),
from the list of walk results.  A walk item that is itself an error is
propagated by `entry_result?` (line 110) and aborts the loop. -/
def assembleAssets :
    List (Except Unit WalkEntry) → Except ZipError (List ZipEntry)
  | [] => Except.ok []
  | Except.error _ :: _ => Except.error ZipError.walkError
  | Except.ok e :: rest => assetStep e (assembleAssets rest)

/-- The bytes of the fixed configuration entry (main.rs lines 98-102):
the UTF-8 bytes of the raw string literal written with `write_all`. -/
def configContent : List UInt8 :=
  "global:\n  wwwroot: wwwroot".toUTF8.toList

/-- The fixed configuration entry written at main.rs lines 96-102:
name `ferron.yaml`, content `configContent`. -/
def configEntry : ZipEntry :=
  ZipEntry.mk "ferron.yaml" EntryKind.config configContent

/-- The whole-archive comment set at main.rs lines 129-135. -/
def zipComment (triple : String) : String :=
  "Ferron built for \"" ++ triple ++ "\" target using Ferron Forge"

/-- The finalized archive: the entries written to it, in order, and its
comment. -/
structure Archive where
  entries : List ZipEntry
  comment : String
deriving DecidableEq

/-- Embeds the archive-assembly phase of `main` (main.rs lines 79-138):
binary entries first (lines 85-94), then the fixed configuration entry
(lines 96-102), then the walked asset entries (lines 104-126), with the
comment set from the triple returned by `compile` (lines 129-135). -/
def assembleArchive (binaries : List UnitOutput)
    (walk : List (Except Unit WalkEntry)) (triple : String) :
    Except ZipError Archive :=
  match assembleBinaries binaries with
  | Except.error e => Except.error e
  | Except.ok binEntries =>
    match assembleAssets walk with
    | Except.error e => Except.error e
    | Except.ok assetEntries =>
      Except.ok (Archive.mk (binEntries ++ configEntry :: assetEntries)
        (zipComment triple))

/-- An error aborting the run after the clone phase: a compile error or
an archive-assembly error. -/
inductive RunError
  | compileError (msg : String)
  | zip (e : ZipError)
deriving DecidableEq

/-- Embeds the compile-then-archive tail of `main` (main.rs
lines 69-138): compile the project, then assemble the archive from the
returned binaries, the `wwwroot` walk, and the returned triple. -/
def mainRun (parseTarget : String → Except String String)
    (members : List String)
    (buildSys : CompileSpec → Except String BuildResult)
    (walk : List (Except Unit WalkEntry))
    (target : Option String) (modules : Option (List String)) :
    Except RunError Archive :=
  match compileRun parseTarget members buildSys target modules with
  | Except.error e => Except.error (RunError.compileError e)
  | Except.ok (binaries, triple) =>
    match assembleArchive binaries walk triple with
    | Except.error e => Except.error (RunError.zip e)
    | Except.ok a => Except.ok a

/-! ### Pure characterizations of the assembly loops -/

/-- The entry contributed by one binary artifact when assembly
succeeds: `none` exactly when the artifact is silently skipped. -/
def binEntryPure (b : UnitOutput) : Option ZipEntry :=
  match b.fileName with
  | none => none
  | some name => some (ZipEntry.mk name EntryKind.binary (b.content.getD []))

/-- The entry contributed by one walked asset entry when assembly
succeeds: `none` exactly when the entry is silently skipped. -/
def assetEntryPure (e : WalkEntry) : Option ZipEntry :=
  match e.relPath.toStr with
  | none => none
  | some s =>
    if e.isFile then
      some (ZipEntry.mk s EntryKind.assetFile (e.content.getD []))
    else if e.relPath.isEmpty then none
    else some (ZipEntry.mk s EntryKind.assetDir [])

/-- The entry contributed by one walk result when assembly succeeds
(an error item never occurs in a successful assembly). -/
def walkItemPure : Except Unit WalkEntry → Option ZipEntry
  | Except.error _ => none
  | Except.ok e => assetEntryPure e

/-! ### Helper lemmas -/

theorem binStep_ok (b : UnitOutput) (t : Except ZipError (List ZipEntry))
    (es : List ZipEntry) (h : binStep b t = Except.ok es) :
    ∃ ts, t = Except.ok ts ∧ es = (binEntryPure b).toList ++ ts := by
  obtain ⟨fn, c⟩ := b
  cases fn with
  | none => exact ⟨es, h, by simp [binEntryPure]⟩
  | some name =>
    cases c with
    | none => exact Except.noConfusion h
    | some bytes =>
      cases t with
      | error e => exact Except.noConfusion h
      | ok ts =>
        exact ⟨ts, rfl, by simpa [binEntryPure] using (Except.ok.inj h).symm⟩

theorem assetStep_ok (e : WalkEntry) (t : Except ZipError (List ZipEntry))
    (es : List ZipEntry) (h : assetStep e t = Except.ok es) :
    ∃ ts, t = Except.ok ts ∧ es = (assetEntryPure e).toList ++ ts := by
  obtain ⟨p, f, c⟩ := e
  cases p with
  | nonUtf8 bytes =>
    exact ⟨es, h, by simp [assetEntryPure, RPath.toStr]⟩
  | utf8 s =>
    cases f with
    | true =>
      cases c with
      | none => exact Except.noConfusion h
      | some bytes =>
        cases t with
        | error err => exact Except.noConfusion h
        | ok ts =>
          refine ⟨ts, rfl, ?_⟩
          simpa [assetEntryPure, RPath.toStr] using (Except.ok.inj h).symm
    | false =>
      cases hs : s.isEmpty with
      | true =>
        simp only [assetStep, RPath.toStr, RPath.isEmpty, hs] at h
        refine ⟨es, ?_, ?_⟩
        · simpa using h
        · simp [assetEntryPure, RPath.toStr, RPath.isEmpty, hs]
      | false =>
        cases t with
        | error err =>
          simp [assetStep, RPath.toStr, RPath.isEmpty, hs] at h
        | ok ts =>
          simp [assetStep, RPath.toStr, RPath.isEmpty, hs] at h
          refine ⟨ts, rfl, ?_⟩
          simp [assetEntryPure, RPath.toStr, RPath.isEmpty, hs, ← h]

theorem assembleBinaries_ok_eq (bs : List UnitOutput) (es : List ZipEntry)
    (h : assembleBinaries bs = Except.ok es) :
    es = bs.filterMap binEntryPure := by
  induction bs generalizing es with
  | nil =>
    have h0 : ([] : List ZipEntry) = es := Except.ok.inj h
    simp [← h0]
  | cons b rest ih =>
    obtain ⟨ts, hts, hes⟩ := binStep_ok b _ es h
    subst hes
    rw [ih ts hts]
    cases hb : binEntryPure b <;> simp [List.filterMap_cons, hb]

theorem assembleAssets_ok_eq (walk : List (Except Unit WalkEntry))
    (es : List ZipEntry) (h : assembleAssets walk = Except.ok es) :
    es = walk.filterMap walkItemPure := by
  induction walk generalizing es with
  | nil =>
    have h0 : ([] : List ZipEntry) = es := Except.ok.inj h
    simp [← h0]
  | cons item rest ih =>
    cases item with
    | error u => exact Except.noConfusion h
    | ok e =>
      obtain ⟨ts, hts, hes⟩ := assetStep_ok e _ es h
      subst hes
      rw [ih ts hts]
      cases he : assetEntryPure e <;>
        simp [List.filterMap_cons, walkItemPure, he]

theorem assembleArchive_ok_eq (bins : List UnitOutput)
    (walk : List (Except Unit WalkEntry)) (triple : String) (a : Archive)
    (h : assembleArchive bins walk triple = Except.ok a) :
    a.entries =
      bins.filterMap binEntryPure ++ configEntry :: walk.filterMap walkItemPure
    ∧ a.comment = zipComment triple := by
  cases hb : assembleBinaries bins with
  | error e => rw [assembleArchive, hb] at h; exact Except.noConfusion h
  | ok binEntries =>
    cases hw : assembleAssets walk with
    | error e => rw [assembleArchive, hb, hw] at h; exact Except.noConfusion h
    | ok assetEntries =>
      rw [assembleArchive, hb, hw] at h
      have ha := Except.ok.inj h
      subst ha
      exact ⟨by rw [← assembleBinaries_ok_eq bins binEntries hb,
                    ← assembleAssets_ok_eq walk assetEntries hw], rfl⟩

theorem compileRun_ok (parseTarget : String → Except String String)
    (members : List String)
    (buildSys : CompileSpec → Except String BuildResult)
    (target : Option String) (modules : Option (List String))
    (out : List UnitOutput × String)
    (h : compileRun parseTarget members buildSys target modules = Except.ok out) :
    ∃ kind r, compileKindOf parseTarget target = Except.ok kind ∧
      buildSys (CompileSpec.mk members "release" kind (cliFeaturesOf modules)) =
        Except.ok r ∧
      out = (r.binaries, r.host) := by
  unfold compileRun at h
  split at h
  next e hk => exact Except.noConfusion h
  next kind hk =>
    split at h
    next e hbs => exact Except.noConfusion h
    next r hbs => exact ⟨kind, r, hk, hbs, (Except.ok.inj h).symm⟩

theorem mainRun_ok (parseTarget : String → Except String String)
    (members : List String)
    (buildSys : CompileSpec → Except String BuildResult)
    (walk : List (Except Unit WalkEntry))
    (target : Option String) (modules : Option (List String)) (a : Archive)
    (h : mainRun parseTarget members buildSys walk target modules = Except.ok a) :
    ∃ bins triple,
      compileRun parseTarget members buildSys target modules =
        Except.ok (bins, triple) ∧
      assembleArchive bins walk triple = Except.ok a := by
  unfold mainRun at h
  split at h
  next e hc => exact Except.noConfusion h
  next bins triple hc =>
    split at h
    next e ha => exact Except.noConfusion h
    next a2 ha => exact ⟨bins, triple, hc, by rw [ha, Except.ok.inj h]⟩

theorem binEntryPure_kind (b : UnitOutput) (z : ZipEntry)
    (h : binEntryPure b = some z) : z.kind = EntryKind.binary := by
  obtain ⟨fn, c⟩ := b
  cases fn with
  | none => exact Option.noConfusion h
  | some name => rw [← Option.some.inj h]

theorem walkItemPure_kind (item : Except Unit WalkEntry) (z : ZipEntry)
    (h : walkItemPure item = some z) :
    z.kind = EntryKind.assetFile ∨ z.kind = EntryKind.assetDir := by
  cases item with
  | error u => exact Option.noConfusion h
  | ok e =>
    obtain ⟨p, f, c⟩ := e
    cases p with
    | nonUtf8 bytes => exact Option.noConfusion h
    | utf8 s =>
      cases f with
      | true =>
        exact Or.inl (by rw [← Option.some.inj h])
      | false =>
        cases hs : s.isEmpty with
        | true =>
          rw [walkItemPure] at h
          simp [assetEntryPure, RPath.toStr, RPath.isEmpty, hs] at h
        | false =>
          rw [walkItemPure] at h
          simp only [assetEntryPure, RPath.toStr, RPath.isEmpty, hs] at h
          simp only [Bool.false_eq_true, if_false, Option.some.injEq] at h
          exact Or.inr (by rw [← h])

theorem compileKindOf_ok (parseTarget : String → Except String String)
    (target : Option String) (kind : CompileKind)
    (h : compileKindOf parseTarget target = Except.ok kind) :
    (target = none ∧ kind = CompileKind.host) ∨
    (∃ t name, target = some t ∧ parseTarget t = Except.ok name ∧
      kind = CompileKind.target name) := by
  cases target with
  | none => exact Or.inl ⟨rfl, (Except.ok.inj h).symm⟩
  | some t =>
    cases hp : parseTarget t with
    | error e =>
      rw [show compileKindOf parseTarget (some t) =
            (match parseTarget t with
             | Except.error e => Except.error e
             | Except.ok name => Except.ok (CompileKind.target name)) from rfl,
          hp] at h
      exact Except.noConfusion h
    | ok name =>
      rw [show compileKindOf parseTarget (some t) =
            (match parseTarget t with
             | Except.error e => Except.error e
             | Except.ok name => Except.ok (CompileKind.target name)) from rfl,
          hp] at h
      exact Or.inr ⟨t, name, rfl, hp, (Except.ok.inj h).symm⟩

/-! ### Claim theorems -/

/-- C1: the claim states that a rustup settings file which parses as
structured configuration but lacks the default-toolchain field yields a
non-fatal "toolchain not found" condition, so that the run proceeds.
On the code this is false: the lookup at main.rs line 154 uses the
panicking `Index` operator of the parsed table, so a table without the
`default_toolchain` key — here a realistic settings table holding only
a `version` entry — panics and aborts the whole run instead of
degrading gracefully.  The recoverable-error branch built at
lines 158-160 is reachable only when the key is present with a
non-string value. -/
theorem missing_default_toolchain_key_panics :
    getRustupToolchain (some [("version", TomlValue.str "12")]) =
      ResolveOutcome.panicAbort
    ∧ toolchainResolutionFatal (some [("version", TomlValue.str "12")]) = true
    ∧ getRustupToolchain (some [("default_toolchain", TomlValue.nonStr)]) =
      ResolveOutcome.recoverableErr :=
  ⟨rfl, rfl, rfl⟩

/-- C2: for every successful run, the whole-archive comment equals
`Ferron built for "<triple>" target using Ferron Forge`, where the
triple is the resolved triple the build system reports back — under
the spec-modelled reporting contract `reportsResolvedTriple`, the
(possibly normalized) cross target accepted by target parsing when an
explicit target was requested, and the host triple otherwise. -/
theorem archive_comment_is_resolved_triple
    (parseTarget : String → Except String String) (members : List String)
    (buildSys : CompileSpec → Except String BuildResult) (hostTriple : String)
    (walk : List (Except Unit WalkEntry))
    (target : Option String) (modules : Option (List String)) (a : Archive)
    (hreport : reportsResolvedTriple hostTriple buildSys)
    (h : mainRun parseTarget members buildSys walk target modules = Except.ok a) :
    ∃ resolved,
      a.comment =
        "Ferron built for \"" ++ resolved ++ "\" target using Ferron Forge"
      ∧ (match target with
         | none => resolved = hostTriple
         | some t => parseTarget t = Except.ok resolved) := by
  obtain ⟨bins, triple, hc, ha⟩ := mainRun_ok _ _ _ _ _ _ _ h
  obtain ⟨kind, r, hk, hbs, hout⟩ := compileRun_ok _ _ _ _ _ _ hc
  injection hout with hb ht
  have hcom := (assembleArchive_ok_eq _ _ _ _ ha).2
  have hhost := hreport _ r hbs
  rcases compileKindOf_ok _ _ _ hk with ⟨htgt, hkind⟩ | ⟨t, name, htgt, hp, hkind⟩
  · subst htgt
    subst hkind
    simp only at hhost
    refine ⟨hostTriple, ?_, rfl⟩
    rw [hcom, ht, hhost]
    rfl
  · subst htgt
    subst hkind
    simp only at hhost
    refine ⟨name, ?_, ?_⟩
    · rw [hcom, ht, hhost]
      rfl
    · exact hp

/-- C2 witness: with a parser accepting every triple and a build
system that reports the resolved triple, a cross run requesting
`aarch64-unknown-linux-gnu` produces an archive whose comment carries
exactly that triple. -/
theorem archive_comment_is_resolved_triple_witness :
    ∃ a, mainRun (fun t => Except.ok t) ["ferron"]
        (fun s => Except.ok (BuildResult.mk []
          (match s.kind with
           | CompileKind.host => "x86_64-unknown-linux-gnu"
           | CompileKind.target t => t)))
        [] (some "aarch64-unknown-linux-gnu") none = Except.ok a
      ∧ ∃ resolved,
          a.comment =
            "Ferron built for \"" ++ resolved ++ "\" target using Ferron Forge"
          ∧ (match (some "aarch64-unknown-linux-gnu" : Option String) with
             | none => resolved = "x86_64-unknown-linux-gnu"
             | some t =>
                 (fun t => (Except.ok t : Except String String)) t
                   = Except.ok resolved) := by
  refine ⟨_, rfl, ?_⟩
  exact archive_comment_is_resolved_triple (fun t => Except.ok t) ["ferron"]
    (fun s => Except.ok (BuildResult.mk []
      (match s.kind with
       | CompileKind.host => "x86_64-unknown-linux-gnu"
       | CompileKind.target t => t)))
    "x86_64-unknown-linux-gnu" [] (some "aarch64-unknown-linux-gnu") none _
    (by
      intro s r hr
      have h2 := Except.ok.inj hr
      subst h2
      rfl)
    rfl

/-- C3 counterexample: an empty but present module list does NOT make
the compile specification request default features: with
`modules = Some([])` the code computes `uses_default_features =
modules.is_none() = false` (main.rs line 170) together with an empty
feature list — an explicitly empty selection, the state the claim says
must not occur. -/
theorem empty_modules_list_is_explicit_empty :
    (cliFeaturesOf (some [])).usesDefaultFeatures = false
    ∧ (cliFeaturesOf (some [])).features = [] :=
  ⟨rfl, rfl⟩

/-- C3 amended: the compile specification requests the default feature
set exactly when the module list is absent; any supplied list —
including the empty one — replaces the defaults with the explicit
`ferron/`-prefixed flags, so a present-but-empty list yields an
explicitly empty feature selection. -/
theorem default_features_iff_absent (modules : Option (List String)) :
    (cliFeaturesOf modules).usesDefaultFeatures = modules.isNone
    ∧ (cliFeaturesOf modules).allFeatures = false
    ∧ (cliFeaturesOf modules).features =
        (modules.getD []).map (fun m => "ferron/" ++ m) :=
  ⟨rfl, rfl, rfl⟩

/-- C4: for a non-empty module list the constructed feature flags are
exactly the module names prefixed with the `ferron/` package
namespace: the flag list is the elementwise prefixing, it has the same
length (nothing added or dropped), and a string is a flag precisely
when it is `ferron/` followed by a listed module name
(order-independent membership). -/
theorem nonempty_modules_feature_flags_exact (ms : List String)
    (_hne : ms ≠ []) :
    modulesAsFeatures (some ms) = ms.map (fun m => "ferron/" ++ m)
    ∧ (modulesAsFeatures (some ms)).length = ms.length
    ∧ ∀ s, s ∈ modulesAsFeatures (some ms) ↔ ∃ m, m ∈ ms ∧ s = "ferron/" ++ m := by
  refine ⟨rfl, by simp [modulesAsFeatures], ?_⟩
  intro s
  constructor
  · intro hs
    obtain ⟨m, hm, hsm⟩ := List.mem_map.mp hs
    exact ⟨m, hm, hsm.symm⟩
  · rintro ⟨m, hm, rfl⟩
    exact List.mem_map.mpr ⟨m, hm, rfl⟩

/-- C4 witness: the module list `["a", "b"]` is non-empty and its flags
are exactly `ferron/a` and `ferron/b`. -/
theorem nonempty_modules_feature_flags_exact_witness :
    (["a", "b"] : List String) ≠ []
    ∧ (modulesAsFeatures (some ["a", "b"])
        = ["a", "b"].map (fun m => "ferron/" ++ m)
      ∧ (modulesAsFeatures (some ["a", "b"])).length
          = (["a", "b"] : List String).length
      ∧ ∀ s, s ∈ modulesAsFeatures (some ["a", "b"])
          ↔ ∃ m, m ∈ ["a", "b"] ∧ s = "ferron/" ++ m) :=
  ⟨by simp, nonempty_modules_feature_flags_exact ["a", "b"] (by simp)⟩

/-- C5 counterexample: a walked, readable regular file whose relative
path is not valid UTF-8 — which is neither a binary path lacking a
file-name component nor a walked directory with empty relative path —
is nevertheless silently dropped: assembling a walk containing only it
succeeds and writes no entry. -/
theorem non_utf8_file_skipped_counterexample :
    assembleAssets
        [Except.ok (WalkEntry.mk (RPath.nonUtf8 [255]) true (some [1, 2]))]
      = Except.ok []
    ∧ (WalkEntry.mk (RPath.nonUtf8 [255]) true (some [1, 2])).isFile = true
    ∧ (WalkEntry.mk (RPath.nonUtf8 [255]) true (some [1, 2])).content
        = some [1, 2]
    ∧ (WalkEntry.mk (RPath.nonUtf8 [255]) true (some [1, 2])).relPath.isEmpty
        = false :=
  ⟨rfl, rfl, rfl, rfl⟩

/-- C5 amended: in a successful assembly the written entries are
exactly the per-input contributions, in input order: a binary input is
silently skipped precisely when its path lacks a file-name component,
and a walked asset entry is silently skipped precisely when its
relative path is not valid UTF-8, or it is a non-file whose relative
path is empty (the subtree root); every other input contributes
exactly one entry, and an unreadable input or failed walk step aborts
the whole assembly with an error instead. -/
theorem assembly_skip_policy :
    (∀ bins walk triple a, assembleArchive bins walk triple = Except.ok a →
      a.entries = bins.filterMap binEntryPure
        ++ configEntry :: walk.filterMap walkItemPure)
    ∧ (∀ b : UnitOutput, binEntryPure b = none ↔ b.fileName = none)
    ∧ (∀ e : WalkEntry, assetEntryPure e = none ↔
        (e.relPath.toStr = none
          ∨ (e.isFile = false ∧ e.relPath.isEmpty = true))) := by
  refine ⟨fun bins walk triple a h => (assembleArchive_ok_eq _ _ _ _ h).1,
    ?_, ?_⟩
  · intro b
    obtain ⟨fn, c⟩ := b
    cases fn <;> simp [binEntryPure]
  · intro e
    obtain ⟨p, f, c⟩ := e
    cases p with
    | nonUtf8 bytes => simp [assetEntryPure, RPath.toStr]
    | utf8 s =>
      cases f <;> cases hs : s.isEmpty <;>
        simp [assetEntryPure, RPath.toStr, RPath.isEmpty, hs]

/-- C5 witness: a run with one well-formed binary and one well-formed
asset file assembles successfully, and its entries are exactly the
characterized contributions. -/
theorem assembly_skip_policy_witness :
    ∃ a, assembleArchive [UnitOutput.mk (some "ferron") (some [7])]
        [Except.ok (WalkEntry.mk (RPath.utf8 "index.html") true (some [60]))]
        "t" = Except.ok a
      ∧ a.entries =
          [UnitOutput.mk (some "ferron") (some [7])].filterMap binEntryPure
          ++ configEntry ::
            [Except.ok (WalkEntry.mk (RPath.utf8 "index.html") true
              (some [60]))].filterMap walkItemPure :=
  ⟨_, rfl, assembly_skip_policy.1 _ _ _ _ rfl⟩

/-- C6: a target string rejected by target parsing
(`CompileTarget::new`, main.rs line 181) makes the orchestrator fail
with the invalid-target error, and this happens for EVERY possible
behavior of the build system — the compilation routine (main.rs
line 221) is never invoked. -/
theorem invalid_target_fails_before_build
    (parseTarget : String → Except String String) (members : List String)
    (t msg : String) (modules : Option (List String))
    (hbad : parseTarget t = Except.error msg) :
    ∀ buildSys, compileRun parseTarget members buildSys (some t) modules
      = Except.error msg := by
  intro buildSys
  unfold compileRun
  have hk : compileKindOf parseTarget (some t) = Except.error msg := by
    simp [compileKindOf, hbad]
  rw [hk]

/-- C6 witness: under the spec-modelled target parser that recognizes
only one triple, the empty target string fails the whole orchestration
with the invalid-target error, for an arbitrary build system. -/
theorem invalid_target_fails_before_build_witness :
    specParseTarget ["x86_64-unknown-linux-gnu"] "" = Except.error "invalid target"
    ∧ ∀ buildSys,
        compileRun (specParseTarget ["x86_64-unknown-linux-gnu"]) ["ferron"]
          buildSys (some "") none = Except.error "invalid target" :=
  ⟨rfl, invalid_target_fails_before_build
    (specParseTarget ["x86_64-unknown-linux-gnu"]) ["ferron"] "" "invalid target"
    none rfl⟩

/-- C7: every successfully assembled archive contains exactly one
configuration entry; it is named `ferron.yaml` and its bytes are
exactly the UTF-8 bytes of the fixed text
`global:\n  wwwroot: wwwroot`. -/
theorem unique_config_entry
    (bins : List UnitOutput) (walk : List (Except Unit WalkEntry))
    (triple : String) (a : Archive)
    (h : assembleArchive bins walk triple = Except.ok a) :
    a.entries.filter (fun z => z.kind == EntryKind.config)
      = [ZipEntry.mk "ferron.yaml" EntryKind.config
          ("global:\n  wwwroot: wwwroot".toUTF8.toList)] := by
  rw [(assembleArchive_ok_eq _ _ _ _ h).1, List.filter_append]
  have hbin : (bins.filterMap binEntryPure).filter
      (fun z => z.kind == EntryKind.config) = [] := by
    rw [List.filter_eq_nil_iff]
    intro z hz
    obtain ⟨b, _, hb⟩ := List.mem_filterMap.mp hz
    rw [binEntryPure_kind b z hb]
    decide
  have hasset : (walk.filterMap walkItemPure).filter
      (fun z => z.kind == EntryKind.config) = [] := by
    rw [List.filter_eq_nil_iff]
    intro z hz
    obtain ⟨item, _, hitem⟩ := List.mem_filterMap.mp hz
    rcases walkItemPure_kind item z hitem with hk | hk <;> rw [hk] <;> decide
  rw [hbin, List.filter_cons_of_pos (by decide), hasset]
  rfl

/-- C7 witness: the archive assembled from no binaries and an empty
walk contains exactly the configuration entry with the fixed bytes. -/
theorem unique_config_entry_witness :
    ∃ a, assembleArchive [] [] "x" = Except.ok a
      ∧ a.entries.filter (fun z => z.kind == EntryKind.config)
          = [ZipEntry.mk "ferron.yaml" EntryKind.config
              ("global:\n  wwwroot: wwwroot".toUTF8.toList)] :=
  ⟨_, rfl, unique_config_entry [] [] "x" _ rfl⟩

/-- C8 counterexample: a walked directory (non-file entry) whose
relative path is non-empty but not valid UTF-8 produces NO directory
entry: assembling a walk containing only it succeeds with an empty
entry list, so the claim fails as stated for every directory. -/
theorem non_utf8_directory_dropped_counterexample :
    assembleAssets [Except.ok (WalkEntry.mk (RPath.nonUtf8 [200]) false none)]
      = Except.ok []
    ∧ (WalkEntry.mk (RPath.nonUtf8 [200]) false none).isFile = false
    ∧ (WalkEntry.mk (RPath.nonUtf8 [200]) false none).relPath.isEmpty = false :=
  ⟨rfl, rfl, rfl⟩

/-- C8 amended: every walked non-file entry whose relative path is
valid UTF-8 and non-empty yields an explicit directory entry at that
relative path in any successful assembly of the walk — in particular
an empty directory `assets/empty` is preserved even though it holds no
files. -/
theorem utf8_directory_entries_preserved
    (walk : List (Except Unit WalkEntry)) (es : List ZipEntry)
    (e : WalkEntry) (s : String)
    (hok : assembleAssets walk = Except.ok es)
    (hmem : Except.ok e ∈ walk)
    (hdir : e.isFile = false)
    (hpath : e.relPath = RPath.utf8 s)
    (hne : s.isEmpty = false) :
    ZipEntry.mk s EntryKind.assetDir [] ∈ es := by
  rw [assembleAssets_ok_eq walk es hok]
  refine List.mem_filterMap.mpr ⟨Except.ok e, hmem, ?_⟩
  obtain ⟨p, f, c⟩ := e
  simp only at hdir hpath
  subst hdir
  subst hpath
  simp [walkItemPure, assetEntryPure, RPath.toStr, RPath.isEmpty, hne]

/-- C8 witness: a walk consisting of the single empty directory
`assets/empty` assembles successfully and the archive contains the
directory entry `assets/empty`. -/
theorem utf8_directory_entries_preserved_witness :
    ∃ es, assembleAssets
        [Except.ok (WalkEntry.mk (RPath.utf8 "assets/empty") false none)]
      = Except.ok es
      ∧ ZipEntry.mk "assets/empty" EntryKind.assetDir [] ∈ es :=
  ⟨[ZipEntry.mk "assets/empty" EntryKind.assetDir []], rfl,
    utf8_directory_entries_preserved
      [Except.ok (WalkEntry.mk (RPath.utf8 "assets/empty") false none)]
      [ZipEntry.mk "assets/empty" EntryKind.assetDir []]
      (WalkEntry.mk (RPath.utf8 "assets/empty") false none) "assets/empty"
      rfl (List.mem_singleton.mpr rfl) rfl rfl rfl⟩

/-- C9: two successful assemblies from the same list of build outputs
and the same asset subtree — the same walk results, possibly
enumerated in a different order — produce archives whose entry lists
are permutations of each other, hence with the same entry names and,
for each name, identical byte contents (with multiplicity), and whose
comments are equal. -/
theorem archive_contents_order_independent
    (bins : List UnitOutput) (w1 w2 : List (Except Unit WalkEntry))
    (triple : String) (a1 a2 : Archive)
    (hperm : w1.Perm w2)
    (h1 : assembleArchive bins w1 triple = Except.ok a1)
    (h2 : assembleArchive bins w2 triple = Except.ok a2) :
    a1.entries.Perm a2.entries ∧ a1.comment = a2.comment := by
  obtain ⟨he1, hc1⟩ := assembleArchive_ok_eq _ _ _ _ h1
  obtain ⟨he2, hc2⟩ := assembleArchive_ok_eq _ _ _ _ h2
  constructor
  · rw [he1, he2]
    exact List.Perm.append_left _
      (List.Perm.cons configEntry (hperm.filterMap walkItemPure))
  · rw [hc1, hc2]

/-- C9 witness: two walks over the same two asset entries in opposite
orders assemble to archives with permuted entries and equal
comments. -/
theorem archive_contents_order_independent_witness :
    ∃ a1 a2,
      assembleArchive []
        [Except.ok (WalkEntry.mk (RPath.utf8 "a.txt") true (some [1])),
         Except.ok (WalkEntry.mk (RPath.utf8 "d") false none)] "t"
        = Except.ok a1
      ∧ assembleArchive []
          [Except.ok (WalkEntry.mk (RPath.utf8 "d") false none),
           Except.ok (WalkEntry.mk (RPath.utf8 "a.txt") true (some [1]))] "t"
          = Except.ok a2
      ∧ a1.entries.Perm a2.entries ∧ a1.comment = a2.comment :=
  ⟨Archive.mk (configEntry :: [ZipEntry.mk "a.txt" EntryKind.assetFile [1],
      ZipEntry.mk "d" EntryKind.assetDir []]) (zipComment "t"),
   Archive.mk (configEntry :: [ZipEntry.mk "d" EntryKind.assetDir [],
      ZipEntry.mk "a.txt" EntryKind.assetFile [1]]) (zipComment "t"),
   rfl, rfl,
   archive_contents_order_independent []
     [Except.ok (WalkEntry.mk (RPath.utf8 "a.txt") true (some [1])),
      Except.ok (WalkEntry.mk (RPath.utf8 "d") false none)]
     [Except.ok (WalkEntry.mk (RPath.utf8 "d") false none),
      Except.ok (WalkEntry.mk (RPath.utf8 "a.txt") true (some [1]))]
     "t"
     (Archive.mk (configEntry :: [ZipEntry.mk "a.txt" EntryKind.assetFile [1],
        ZipEntry.mk "d" EntryKind.assetDir []]) (zipComment "t"))
     (Archive.mk (configEntry :: [ZipEntry.mk "d" EntryKind.assetDir [],
        ZipEntry.mk "a.txt" EntryKind.assetFile [1]]) (zipComment "t"))
     (List.Perm.swap (Except.ok (WalkEntry.mk (RPath.utf8 "d") false none))
       (Except.ok (WalkEntry.mk (RPath.utf8 "a.txt") true (some [1]))) [])
     rfl rfl⟩

/-- C10: a walked entry whose relative path is not valid UTF-8 is
silently skipped: removing it from the walk leaves the assembly result
unchanged — no entry is written for it and no error is raised —
whatever its position, kind, or readability. -/
theorem non_utf8_relpath_silently_skipped
    (e : WalkEntry) (hbad : e.relPath.toStr = none)
    (pre post : List (Except Unit WalkEntry)) :
    assembleAssets (pre ++ Except.ok e :: post)
      = assembleAssets (pre ++ post) := by
  induction pre with
  | nil =>
    obtain ⟨p, f, c⟩ := e
    cases p with
    | utf8 s => simp [RPath.toStr] at hbad
    | nonUtf8 bytes => rfl
  | cons item rest ih =>
    cases item with
    | error u => rfl
    | ok e2 =>
      show assetStep e2 (assembleAssets (rest ++ Except.ok e :: post))
        = assetStep e2 (assembleAssets (rest ++ post))
      rw [ih]

/-- C10 witness: a readable regular file with a non-UTF-8 relative
path, walked between two ordinary entries, changes nothing in the
assembly result. -/
theorem non_utf8_relpath_silently_skipped_witness :
    (WalkEntry.mk (RPath.nonUtf8 [195]) true (some [5])).relPath.toStr = none
    ∧ assembleAssets
        ([Except.ok (WalkEntry.mk (RPath.utf8 "a") true (some [1]))]
          ++ Except.ok (WalkEntry.mk (RPath.nonUtf8 [195]) true (some [5]))
            :: [Except.ok (WalkEntry.mk (RPath.utf8 "b") false none)])
      = assembleAssets
          ([Except.ok (WalkEntry.mk (RPath.utf8 "a") true (some [1]))]
            ++ [Except.ok (WalkEntry.mk (RPath.utf8 "b") false none)]) :=
  ⟨rfl, non_utf8_relpath_silently_skipped
    (WalkEntry.mk (RPath.nonUtf8 [195]) true (some [5])) rfl _ _⟩

end FerronForge
